import Mathlib

/-!
Shallow embedding of the indianacat-automation control loop
(src/lib/common.py and src/lib/ic.py).

Images are modelled as width/height plus a total pixel function (the RGB
value of a pixel encoded as a natural number; `convert('RGB')` is the
identity of the model).  PIL's `crop` pads out-of-bounds pixels with zero.
`ImageChops.difference(a, b).getbbox()` is empty exactly when the two
equally-sized images agree on every pixel; `difference` on images of
different sizes raises, which the model renders as `none`.

Python exceptions are modelled with `Option`/`Except`: a condition whose
evaluation raises yields `none`, `os.remove` on a missing path fails, and
`Screenshots.add` reports whether the removal loop raised.  The filesystem
is the list of existing paths.
-/

namespace ICat

structure Image where
  width : Nat
  height : Nat
  pix : Nat → Nat → Nat

/-- PIL `Image.crop((l, t, r, b))`: result has size `(r - l, b - t)`,
pixels are taken from the source where in bounds and are zero (black
padding) elsewhere. -/
def Image.crop (img : Image) (l t r b : Nat) : Image where
  width := r - l
  height := b - t
  pix := fun x y => if l + x < img.width ∧ t + y < img.height then img.pix (l + x) (t + y) else 0

/-- Boolean test that two images of the same size agree on every pixel of
the first image's bounds: `ImageChops.difference(a, b).getbbox()` is empty. -/
def pixEqB (a b : Image) : Bool :=
  (List.range a.width).all fun x => (List.range a.height).all fun y => a.pix x y == b.pix x y

/-- Two images are pixel-identical: same dimensions and equal pixels at
every in-bounds coordinate. -/
def Image.identical (a b : Image) : Prop :=
  a.width = b.width ∧ a.height = b.height ∧
    ∀ x < a.width, ∀ y < a.height, a.pix x y = b.pix x y

/-- The reference library: `create_references()` maps hierarchical keys to
decoded images. -/
abbrev Refs : Type := String → Image

/-- The filesystem, as the list of currently existing paths. -/
abbrev FS : Type := List String

/-- Commands from src/lib/common.py: `NoOpCommand`, `BatchCommand`,
`StartGameCommand(package, activity)`, `StopGameCommand(package)`,
`ClickCommand(x, y)`, `TogglePowerCommand`, `WaitCommand(duration)`
(duration kept in seconds). -/
inductive Command where
  | noOpCommand : Command
  | batchCommand (commands : List Command) : Command
  | startGameCommand (packageName activityName : String) : Command
  | stopGameCommand (packageName : String) : Command
  | clickCommand (x y : Nat) : Command
  | togglePowerCommand : Command
  | waitCommand (seconds : Nat) : Command

/-- Conditions from src/lib/common.py.  `AndCondition`/`OrCondition` take
their sub-conditions as a list (Python varargs). -/
inductive Condition where
  | trueCondition : Condition
  | notCondition (c : Condition) : Condition
  | andCondition (cs : List Condition) : Condition
  | orCondition (cs : List Condition) : Condition
  | similarScreenshotCondition (reference : Image) (left top width height : Nat) : Condition
  | sameScreenshotCondition : Condition

/-- Stages from src/lib/common.py and src/lib/ic.py; each carries the
reference dictionary it was constructed with, and those stages that are
constructed with a start/stop command carry it. -/
inductive Stage where
  | unknownStage (refs : Refs) : Stage
  | powerOffStage (refs : Refs) : Stage
  | desktopStage (refs : Refs) (startGame : Command) : Stage
  | unknownAdStage (refs : Refs) (startGame : Command) : Stage
  | unityAdStage (refs : Refs) (startGame : Command) : Stage
  | dailyBonusStage (refs : Refs) : Stage
  | dailyBonusNotForFriendStage (refs : Refs) : Stage
  | dailyRewardStage (refs : Refs) : Stage
  | startBonusStage (refs : Refs) : Stage
  | startStage (refs : Refs) : Stage
  | bonusStage (refs : Refs) : Stage
  | bonusRewardStage (refs : Refs) : Stage
  | bigLuckStage (refs : Refs) : Stage
  | bankStage (refs : Refs) : Stage
  | bankTimerStage (refs : Refs) : Stage
  | bankNoButtonStage (refs : Refs) (stopGame : Command) : Stage
  | offlineStage (refs : Refs) : Stage
  | videoNotAvailableStage (refs : Refs) (stopGame : Command) : Stage

/-- The screenshot history buffer (class `Screenshots`): a newest-first
list of (path, image) pairs and the bound `max_count`. -/
structure Screenshots where
  maxCount : Nat
  screenshots : List (String × Image)

/-- The stage history buffer (class `Stages`): a newest-first list of
recognized stages and the bound `max_count`. -/
structure Stages where
  maxCount : Nat
  stages : List Stage

/-- `Screenshots._get_by_index`: indexing with `try/except IndexError`. -/
def Screenshots.get_by_index (s : Screenshots) (index : Nat) : Option Image :=
  (s.screenshots.get? index).map Prod.snd

/-- `Screenshots.last` property: image at index 0, absent when empty. -/
def Screenshots.last (s : Screenshots) : Option Image :=
  s.get_by_index 0

/-- `Screenshots.previous` property: image at index 1, absent when the
buffer holds fewer than two entries. -/
def Screenshots.previous (s : Screenshots) : Option Image :=
  s.get_by_index 1

/-- `Stages._get_by_index`. -/
def Stages.get_by_index (s : Stages) (index : Nat) : Option Stage :=
  s.stages.get? index

/-- `Stages.previous` property: stage at index 1. -/
def Stages.previous (s : Stages) : Option Stage :=
  s.get_by_index 1

/-- `Stages.add`: insert at the front, truncate to `max_count`.  No
filesystem argument: stage eviction touches no storage. -/
def Stages.add (s : Stages) (stage : Stage) : Stages where
  maxCount := s.maxCount
  stages := (stage :: s.stages).take s.maxCount

/-- One `os.remove(path)`: succeeds and deletes the path when it exists,
raises (`error` carries the unchanged filesystem) when it does not. -/
def osRemove (fs : FS) (path : String) : Except FS FS :=
  if path ∈ fs then .ok (List.erase fs path) else .error fs

/-- The removal loop of `Screenshots.add` over the evicted paths; on a
raise the filesystem reached so far is reported. -/
def removeAll (fs : FS) : List String → Except FS FS
  | [] => .ok fs
  | p :: rest =>
    match osRemove fs p with
    | .ok fs1 => removeAll fs1 rest
    | .error fs1 => .error fs1

/-- Result of `Screenshots.add`: either the add ran to completion, or the
removal loop raised, in which case the buffer has the new entry inserted
but was never truncated. -/
inductive AddResult where
  | ok (s : Screenshots) (fs : FS) : AddResult
  | removeFailed (s : Screenshots) (fs : FS) : AddResult

/-- `Screenshots.add(path, screenshot)`: insert at index 0, `os.remove`
each entry beyond `max_count`, then truncate.  An uncaught `os.remove`
failure leaves the buffer inserted but untruncated. -/
def Screenshots.add (s : Screenshots) (fs : FS) (path : String) (screenshot : Image) : AddResult :=
  match removeAll fs ((((path, screenshot) :: s.screenshots).drop s.maxCount).map Prod.fst) with
  | .ok fs1 => .ok ⟨s.maxCount, ((path, screenshot) :: s.screenshots).take s.maxCount⟩ fs1
  | .error fs1 => .removeFailed ⟨s.maxCount, (path, screenshot) :: s.screenshots⟩ fs1

/-- `Condition.is_met(screenshots, stages)`.  `none` models a raised
exception: `SimilarScreenshotCondition` dereferences `screenshots.last`
without a guard, so an empty history raises; `ImageChops.difference` on
full frames of different sizes raises.  `all`/`any` over the Python
generator stop at the first decisive sub-result. -/
def Condition.is_met : Condition → Screenshots → Stages → Option Bool
  | .trueCondition, _, _ => some true
  | .notCondition c, screenshots, stages => (c.is_met screenshots stages).map fun b => !b
  | .andCondition [], _, _ => some true
  | .andCondition (c :: cs), screenshots, stages =>
    match c.is_met screenshots stages with
    | none => none
    | some false => some false
    | some true => (Condition.andCondition cs).is_met screenshots stages
  | .orCondition [], _, _ => some false
  | .orCondition (c :: cs), screenshots, stages =>
    match c.is_met screenshots stages with
    | none => none
    | some true => some true
    | some false => (Condition.orCondition cs).is_met screenshots stages
  | .similarScreenshotCondition reference l t w h, screenshots, _ =>
    match screenshots.last with
    | none => none
    | some lastImg =>
      some (pixEqB (lastImg.crop l t (l + w) (t + h)) (reference.crop l t (l + w) (t + h)))
  | .sameScreenshotCondition, screenshots, _ =>
    match screenshots.previous with
    | none => some false
    | some prevImg =>
      match screenshots.last with
      | none => none
      | some lastImg =>
        if lastImg.width = prevImg.width ∧ lastImg.height = prevImg.height then
          some (pixEqB lastImg prevImg)
        else
          none

/-- `Stage.get_condition`, assembled from src/lib/common.py and
src/lib/ic.py, with each reference looked up in the stage's dictionary. -/
def Stage.get_condition : Stage → Condition
  | .unknownStage _ => .trueCondition
  | .powerOffStage refs =>
    .similarScreenshotCondition (refs ("common/power_off")) 0 0 2560 1600
  | .desktopStage refs _ =>
    .similarScreenshotCondition (refs ("common/desktop")) 2470 18 82 1570
  | .unknownAdStage refs _ =>
    .andCondition [
      .similarScreenshotCondition (refs ("common/ad")) 998 1520 568 73,
      .sameScreenshotCondition]
  | .unityAdStage refs _ =>
    .andCondition [
      .orCondition [
        .similarScreenshotCondition (refs ("common/ad_unity")) 2366 636 84 302,
        .similarScreenshotCondition (refs ("common/ad_unity_2")) 2388 649 74 291],
      .sameScreenshotCondition]
  | .dailyBonusStage refs =>
    .andCondition [
      .similarScreenshotCondition (refs ("ic/daily_bonus")) 800 1060 1030 108,
      .similarScreenshotCondition (refs ("ic/daily_bonus")) 2432 1193 82 82]
  | .dailyBonusNotForFriendStage refs =>
    .andCondition [
      .similarScreenshotCondition (refs ("ic/daily_bonus")) 800 1060 1030 108,
      .notCondition (.similarScreenshotCondition (refs ("ic/daily_bonus")) 2432 1193 82 82)]
  | .dailyRewardStage refs =>
    .similarScreenshotCondition (refs ("ic/daily_reward")) 814 478 104 654
  | .startBonusStage refs =>
    .similarScreenshotCondition (refs ("ic/start_bonus")) 503 1363 31 112
  | .startStage refs =>
    .andCondition [
      .similarScreenshotCondition (refs ("ic/start")) 62 929 84 84,
      .notCondition (.similarScreenshotCondition (refs ("ic/start_bonus")) 503 1363 31 112)]
  | .bonusStage refs =>
    .similarScreenshotCondition (refs ("ic/bonus")) 48 280 188 1294
  | .bonusRewardStage refs =>
    .similarScreenshotCondition (refs ("ic/bonus_reward")) 898 306 114 1000
  | .bigLuckStage refs =>
    .similarScreenshotCondition (refs ("ic/big_luck")) 1012 222 662 808
  | .bankStage refs =>
    .similarScreenshotCondition (refs ("ic/bank")) 1806 130 286 1336
  | .bankTimerStage refs =>
    .andCondition [
      .similarScreenshotCondition (refs ("ic/bank")) 386 64 144 1472,
      .notCondition (.similarScreenshotCondition (refs ("ic/bank")) 1806 130 286 1336)]
  | .bankNoButtonStage refs _ =>
    .similarScreenshotCondition (refs ("ic/bank_no_button")) 592 62 154 1470
  | .offlineStage refs =>
    .similarScreenshotCondition (refs ("ic/offline")) 1031 327 355 948
  | .videoNotAvailableStage refs _ =>
    .similarScreenshotCondition (refs ("ic/video_not_available")) 1031 327 355 948

/-- `isinstance(stage, (UnknownAdStage, UnityAdStage))`. -/
def Stage.isAdStage : Stage → Bool
  | .unknownAdStage _ _ => true
  | .unityAdStage _ _ => true
  | _ => false

/-- `isinstance(stage, StartStage)`. -/
def Stage.isStartStage : Stage → Bool
  | .startStage _ => true
  | _ => false

/-- `Stage.get_command(stages)` for every stage variant;
`BankTimerStage.get_command` branches on `stages.previous`
(`isinstance` of `None` is false). -/
def Stage.get_command : Stage → Stages → Command
  | .unknownStage _, _ => .noOpCommand
  | .powerOffStage _, _ => .togglePowerCommand
  | .desktopStage _ startGame, _ => startGame
  | .unknownAdStage _ startGame, _ => startGame
  | .unityAdStage _ startGame, _ => startGame
  | .dailyBonusStage _, _ => .clickCommand 365 2474
  | .dailyBonusNotForFriendStage _, _ => .clickCommand 1142 2433
  | .dailyRewardStage _, _ => .clickCommand 774 1624
  | .startBonusStage _, _ => .clickCommand 131 405
  | .startStage _, _ => .clickCommand 630 120
  | .bonusStage _, _ => .clickCommand 800 2362
  | .bonusRewardStage _, _ => .clickCommand 784 1538
  | .bigLuckStage _, _ => .clickCommand 1414 400
  | .bankStage _, _ => .clickCommand 800 1900
  | .bankTimerStage _, stages =>
    if (stages.previous.map Stage.isAdStage).getD false then
      .batchCommand [.togglePowerCommand, .waitCommand 1800]
    else if (stages.previous.map Stage.isStartStage).getD false then
      .batchCommand [.togglePowerCommand, .waitCommand 600]
    else
      .clickCommand 1478 446
  | .bankNoButtonStage _ stopGame, _ =>
    .batchCommand [stopGame, .togglePowerCommand, .waitCommand 600]
  | .offlineStage _, _ => .clickCommand 800 1430
  | .videoNotAvailableStage _ stopGame, _ =>
    .batchCommand [stopGame, .togglePowerCommand, .waitCommand 600]

/-- Errors escaping `get_current_stage`: the explicit
`RuntimeError('stage not defined')` when the scan is exhausted, or an
exception raised by a condition's evaluation. -/
inductive ClassifyError where
  | stageNotDefined : ClassifyError
  | conditionRaised : ClassifyError

/-- `get_current_stage(stages_to_test, screenshots, stages)`: scan the
registered stages in order, return the first whose condition is met,
raise `RuntimeError` when none is. -/
def get_current_stage (stagesToTest : List Stage) (screenshots : Screenshots)
    (stages : Stages) : Except ClassifyError Stage :=
  match stagesToTest with
  | [] => .error .stageNotDefined
  | stage :: rest =>
    match stage.get_condition.is_met screenshots stages with
    | none => .error .conditionRaised
    | some true => .ok stage
    | some false => get_current_stage rest screenshots stages

/-- The fixed tick interval, `TICK_INTERVAL = 5` (seconds, kept exact as a
rational). -/
def TICK_INTERVAL : ℚ := 5

/-- `grab_screenshot`: the capture collaborator is invoked with the target
path; a nonzero exit code yields no path. -/
def grab_screenshot (callResult : Nat) (path : String) : Option String :=
  if callResult ≠ 0 then none else some path

/-- Errors escaping `handle_tick`: a raise out of the screenshot-eviction
removal loop, or a raise out of classification. -/
inductive TickError where
  | removeRaised : TickError
  | classify (e : ClassifyError) : TickError

/-- What one `handle_tick` call returns: the two buffers, the command it
executed (if any), the wait until the next tick, and the filesystem. -/
structure TickResult where
  screenshots : Screenshots
  stages : Stages
  executed : Option Command
  wait : ℚ
  fs : FS

/-- Python object truthiness of a `Stage` instance: always true. -/
def Stage.truthy (_ : Stage) : Bool := true

/-- `handle_tick(stages_to_test, directory, screenshots, stages)`.
Inputs beyond the Python parameters model the environment: `grabResult`
is what `grab_screenshot` returned, `decode` is `create_image` (the
image decoded from a path), `fs` the filesystem, and `elapsed` the value
of `time() - now` at the tick's end.  The `if stage:` test is kept as
the (constant-true) truthiness of the classified stage, so the
`TICK_INTERVAL - (time() - now)` branch is preserved from the source. -/
def handle_tick (stagesToTest : List Stage) (grabResult : Option String)
    (decode : String → Image) (fs : FS) (screenshots : Screenshots) (stages : Stages)
    (elapsed : ℚ) : Except TickError TickResult :=
  match grabResult with
  | none => .ok ⟨screenshots, stages, none, TICK_INTERVAL, fs⟩
  | some path =>
    match screenshots.add fs path (decode path) with
    | .removeFailed _ _ => .error .removeRaised
    | .ok screenshots1 fs1 =>
      match get_current_stage stagesToTest screenshots1 stages with
      | .error e => .error (.classify e)
      | .ok stage =>
        if stage.truthy then
          let stages1 := stages.add stage
          .ok ⟨screenshots1, stages1, some (stage.get_command stages1), TICK_INTERVAL, fs1⟩
        else
          .ok ⟨screenshots1, stages, none, TICK_INTERVAL - elapsed, fs1⟩

/-- The sleep guard of `run`: the loop sleeps only when the wait returned
by `handle_tick` is positive. -/
def runSleeps (wait : ℚ) : Bool := wait > 0

/-- Iterate `Screenshots.add` over a list of captures, oldest first; a
raise from any step aborts the iteration. -/
def Screenshots.addAll (s : Screenshots) (fs : FS) :
    List (String × Image) → Except Unit (Screenshots × FS)
  | [] => .ok (s, fs)
  | e :: rest =>
    match s.add fs e.1 e.2 with
    | .ok s1 fs1 => Screenshots.addAll s1 fs1 rest
    | .removeFailed _ _ => .error ()

/-- Iterate `Stages.add` over a list of recognized stages, oldest first. -/
def Stages.addAll (s : Stages) : List Stage → Stages
  | [] => s
  | stage :: rest => (s.add stage).addAll rest

/-- A solid-colour test image, for concrete instantiations. -/
def solidImage (w h c : Nat) : Image where
  width := w
  height := h
  pix := fun _ _ => c

/-- A black 4 by 4 test image. -/
def imgZero : Image := solidImage 4 4 0

/-- A white-ish 4 by 4 test image, differing from `imgZero` everywhere. -/
def imgOne : Image := solidImage 4 4 1

/-- A reference library mapping every key to `imgZero`. -/
def testRefs : Refs := fun _ => imgZero

/-- An empty screenshot history with the production bound 5. -/
def ssEmpty : Screenshots := ⟨5, []⟩

/-- A screenshot history holding the single capture `imgOne`. -/
def ssOne : Screenshots := ⟨5, [("p1", imgOne)]⟩

/-- An empty stage history with the production bound 20. -/
def stEmpty : Stages := ⟨20, []⟩

theorem pixEqB_eq_true_iff {a b : Image} :
    pixEqB a b = true ↔ ∀ x < a.width, ∀ y < a.height, a.pix x y = b.pix x y := by
  simp [pixEqB, List.all_eq_true, List.mem_range]

theorem pixEqB_refl (a : Image) : pixEqB a a = true :=
  pixEqB_eq_true_iff.2 fun _ _ _ _ => rfl

theorem pixEqB_false {a b : Image} (x y : Nat) (hx : x < a.width) (hy : y < a.height)
    (hne : a.pix x y ≠ b.pix x y) : pixEqB a b = false := by
  cases h : pixEqB a b with
  | false => rfl
  | true => exact absurd (pixEqB_eq_true_iff.1 h x hx y hy) hne

theorem identical_iff {a b : Image} :
    a.identical b ↔ a.width = b.width ∧ a.height = b.height ∧ pixEqB a b = true := by
  unfold Image.identical
  rw [pixEqB_eq_true_iff]

/-- The `power_off` region check from `testRefs` evaluates to false on any
history whose most recent screenshot is `imgOne`: the region starts at the
origin, where `imgOne` and the all-zero reference differ. -/
theorem powerOff_false (ss : Screenshots) (st : Stages) (h : ss.last = some imgOne) :
    (Stage.powerOffStage testRefs).get_condition.is_met ss st = some false := by
  show (Condition.similarScreenshotCondition (testRefs ("common/power_off")) 0 0 2560 1600).is_met
      ss st = some false
  unfold Condition.is_met
  rw [h]
  refine congrArg some (pixEqB_false 0 0 ?_ ?_ ?_)
  · show (0 : Nat) < 2560 - 0
    norm_num
  · show (0 : Nat) < 1600 - 0
    norm_num
  · show (imgOne.crop 0 0 2560 1600).pix 0 0 ≠ ((testRefs ("common/power_off")).crop 0 0 2560 1600).pix 0 0
    simp [Image.crop, imgOne, solidImage, testRefs, imgZero]

/-- Claim C10: the history accessors are total: `last`/`previous` on the
screenshot buffer return `none` below 1 or 2 entries; `Stages.previous`
denotes index 1 and is `none` until two stages were recorded; and after
`add` (with bound at least 2, as in the control loop) `previous` is the
head of the buffer before the add, i.e. the stage recognized on the
previous tick. -/
theorem c10_history_accessors_total (ss : Screenshots) (st : Stages) :
    (ss.screenshots.length < 1 → ss.last = none) ∧
    (ss.screenshots.length < 2 → ss.previous = none) ∧
    st.previous = st.stages.get? 1 ∧
    (st.stages.length < 2 → st.previous = none) ∧
    (∀ s : Stage, 2 ≤ st.maxCount → (st.add s).previous = st.stages.head?) := by
  refine ⟨?_, ?_, rfl, ?_, ?_⟩
  · intro h
    have h0 : ss.screenshots.get? 0 = none := List.get?_eq_none.2 (by omega)
    show (ss.screenshots.get? 0).map Prod.snd = none
    rw [h0]
    rfl
  · intro h
    have h1 : ss.screenshots.get? 1 = none := List.get?_eq_none.2 (by omega)
    show (ss.screenshots.get? 1).map Prod.snd = none
    rw [h1]
    rfl
  · intro h
    show st.stages.get? 1 = none
    exact List.get?_eq_none.2 (by omega)
  · intro s h
    show ((s :: st.stages).take st.maxCount).get? 1 = st.stages.head?
    rw [List.get?_take (by omega)]
    exact List.get?_zero st.stages

/-- Concrete run of claim C10's theorem: an empty screenshot buffer has no
`last` and no `previous`, a one-stage history has no `previous`, and after
a second `add` the previous tick's stage is seen. -/
theorem c10_history_accessors_total_witness :
    ssEmpty.last = none ∧ ssEmpty.previous = none ∧
    (Stages.mk 20 [Stage.unknownStage testRefs]).previous = none ∧
    ((Stages.mk 20 [Stage.unknownStage testRefs]).add (Stage.startStage testRefs)).previous =
      some (Stage.unknownStage testRefs) := by
  obtain ⟨h1, h2, -, h4, h5⟩ :=
    c10_history_accessors_total ssEmpty (Stages.mk 20 [Stage.unknownStage testRefs])
  exact ⟨h1 (by decide), h2 (by decide), h4 (by decide),
    (h5 (Stage.startStage testRefs) (by decide)).trans rfl⟩

/-- Claim C5: `BankTimerStage.get_command` branches on the previous stage
in the history: an ad stage selects the power-toggle plus 30-minute wait
batch, `StartStage` the 10-minute variant, anything else (including an
absent previous stage) the direct tap at (1478, 446). -/
theorem c5_bank_timer_lookback (refs : Refs) (st : Stages) :
    (∀ p, st.previous = some p → p.isAdStage = true →
      (Stage.bankTimerStage refs).get_command st =
        .batchCommand [.togglePowerCommand, .waitCommand 1800]) ∧
    (∀ p, st.previous = some p → p.isStartStage = true →
      (Stage.bankTimerStage refs).get_command st =
        .batchCommand [.togglePowerCommand, .waitCommand 600]) ∧
    ((st.previous.map Stage.isAdStage).getD false = false →
      (st.previous.map Stage.isStartStage).getD false = false →
      (Stage.bankTimerStage refs).get_command st = .clickCommand 1478 446) := by
  refine ⟨?_, ?_, ?_⟩
  · intro p hp had
    simp [Stage.get_command, hp, had]
  · intro p hp hstart
    have had : p.isAdStage = false := by
      cases p <;> simp_all [Stage.isStartStage, Stage.isAdStage]
    simp [Stage.get_command, hp, had, hstart]
  · intro had hstart
    simp [Stage.get_command, had, hstart]

/-- Concrete run of claim C5's theorem: with previous stage
`UnknownAdStage` the 30-minute batch is produced, with `StartStage` the
10-minute batch, and with no previous stage the direct tap. -/
theorem c5_bank_timer_lookback_witness :
    (Stage.bankTimerStage testRefs).get_command
        ⟨20, [Stage.bankTimerStage testRefs,
              Stage.unknownAdStage testRefs (.startGameCommand ("pkg") ("act"))]⟩ =
      .batchCommand [.togglePowerCommand, .waitCommand 1800] ∧
    (Stage.bankTimerStage testRefs).get_command
        ⟨20, [Stage.bankTimerStage testRefs, Stage.startStage testRefs]⟩ =
      .batchCommand [.togglePowerCommand, .waitCommand 600] ∧
    (Stage.bankTimerStage testRefs).get_command stEmpty = .clickCommand 1478 446 := by
  refine ⟨?_, ?_, ?_⟩
  · exact (c5_bank_timer_lookback testRefs _).1
      (Stage.unknownAdStage testRefs (.startGameCommand ("pkg") ("act"))) rfl rfl
  · exact (c5_bank_timer_lookback testRefs _).2.1 (Stage.startStage testRefs) rfl rfl
  · exact (c5_bank_timer_lookback testRefs stEmpty).2.2 rfl rfl

/-- Claim C9: a failed capture (nonzero exit code) aborts the tick early:
no classification happens (the result does not depend on the registered
stages), both buffers and the filesystem are unchanged, no command is
executed, the wait is the full fixed tick interval, and the result is a
normal return, never an error. -/
theorem c9_capture_failure_recoverable (stagesToTest : List Stage) (callResult : Nat)
    (path : String) (decode : String → Image) (fs : FS) (ss : Screenshots) (st : Stages)
    (elapsed : ℚ) (h : callResult ≠ 0) :
    handle_tick stagesToTest (grab_screenshot callResult path) decode fs ss st elapsed =
      .ok ⟨ss, st, none, TICK_INTERVAL, fs⟩ := by
  simp [grab_screenshot, handle_tick, h]

/-- Concrete run of claim C9's theorem at capture exit code 1. -/
theorem c9_capture_failure_recoverable_witness :
    handle_tick [Stage.powerOffStage testRefs] (grab_screenshot 1 ("p")) (fun _ => imgOne)
        [] ssOne stEmpty 2 = .ok ⟨ssOne, stEmpty, none, TICK_INTERVAL, []⟩ :=
  c9_capture_failure_recoverable [Stage.powerOffStage testRefs] 1 ("p") (fun _ => imgOne)
    [] ssOne stEmpty 2 (by decide)

/-- Evaluating the constant-true condition. -/
theorem is_met_trueCondition (ss : Screenshots) (st : Stages) :
    Condition.trueCondition.is_met ss st = some true := by
  simp [Condition.is_met]

/-- The scan of `get_current_stage` returns the stage at the first index
whose condition is met, provided every earlier condition evaluates to
false. -/
theorem get_current_stage_of_first (L : List Stage) (ss : Screenshots) (st : Stages) :
    ∀ (i : Nat) (hi : i < L.length),
      (L.get ⟨i, hi⟩).get_condition.is_met ss st = some true →
      (∀ j (hj : j < L.length), j < i →
        (L.get ⟨j, hj⟩).get_condition.is_met ss st = some false) →
      get_current_stage L ss st = .ok (L.get ⟨i, hi⟩) := by
  induction L with
  | nil =>
    intro i hi
    exact absurd hi (by simp)
  | cons s rest ih =>
    intro i hi htrue hfalse
    cases i with
    | zero =>
      have h0 : s.get_condition.is_met ss st = some true := htrue
      simp only [get_current_stage, h0]
      rfl
    | succ n =>
      have h0 : s.get_condition.is_met ss st = some false :=
        hfalse 0 (by simp) (Nat.succ_pos n)
      have hrest := ih n (by simpa using hi) htrue
        (fun j hj hlt => hfalse (j + 1) (by simpa using hj) (by omega))
      simp only [get_current_stage, h0]
      exact hrest

/-- When every registered condition evaluates to false the scan is
exhausted and `RuntimeError('stage not defined')` is raised. -/
theorem get_current_stage_all_false (L : List Stage) (ss : Screenshots) (st : Stages)
    (h : ∀ s ∈ L, s.get_condition.is_met ss st = some false) :
    get_current_stage L ss st = .error .stageNotDefined := by
  induction L with
  | nil => rfl
  | cons s rest ih =>
    have h0 := h s (by simp)
    simp only [get_current_stage, h0]
    exact ih fun x hx => h x (by simp [hx])

/-- Claim C1: classification returns the first stage in registration
order whose condition evaluates true: if the condition at index `i` is
true and every earlier condition evaluates false, the stage at `i` is
returned; and in the tick that classifies it, the executed command is
that stage's, so a later-registered matching stage's command is never
produced. -/
theorem c1_first_match (L : List Stage) (ss1 : Screenshots) (st : Stages) (i : Nat)
    (hi : i < L.length)
    (htrue : (L.get ⟨i, hi⟩).get_condition.is_met ss1 st = some true)
    (hfalse : ∀ j (hj : j < L.length), j < i →
      (L.get ⟨j, hj⟩).get_condition.is_met ss1 st = some false) :
    get_current_stage L ss1 st = .ok (L.get ⟨i, hi⟩) ∧
    (∀ (path : String) (decode : String → Image) (fs fs1 : FS) (ss0 : Screenshots)
      (elapsed : ℚ), ss0.add fs path (decode path) = .ok ss1 fs1 →
      handle_tick L (some path) decode fs ss0 st elapsed =
        .ok ⟨ss1, st.add (L.get ⟨i, hi⟩),
          some ((L.get ⟨i, hi⟩).get_command (st.add (L.get ⟨i, hi⟩))), TICK_INTERVAL, fs1⟩) := by
  have hfirst := get_current_stage_of_first L ss1 st i hi htrue hfalse
  refine ⟨hfirst, ?_⟩
  intro path decode fs fs1 ss0 elapsed hadd
  simp [handle_tick, hadd, hfirst, Stage.truthy]

/-- Concrete run of claim C1's theorem: a registry whose first stage
evaluates false and whose second (the always-true fallback) evaluates
true classifies the capture as the fallback and executes the fallback's
no-op command. -/
theorem c1_first_match_witness :
    get_current_stage [Stage.powerOffStage testRefs, Stage.unknownStage testRefs]
        ⟨5, [("p", imgOne)]⟩ stEmpty = .ok (Stage.unknownStage testRefs) ∧
    handle_tick [Stage.powerOffStage testRefs, Stage.unknownStage testRefs] (some ("p"))
        (fun _ => imgOne) [] ssEmpty stEmpty 2 =
      .ok ⟨⟨5, [("p", imgOne)]⟩, stEmpty.add (Stage.unknownStage testRefs),
        some Command.noOpCommand, TICK_INTERVAL, []⟩ := by
  have hi : (1 : Nat) < [Stage.powerOffStage testRefs, Stage.unknownStage testRefs].length := by
    norm_num
  have htrue : (Stage.unknownStage testRefs).get_condition.is_met
      ⟨5, [("p", imgOne)]⟩ stEmpty = some true := is_met_trueCondition _ _
  have h := c1_first_match [Stage.powerOffStage testRefs, Stage.unknownStage testRefs]
    ⟨5, [("p", imgOne)]⟩ stEmpty 1 hi htrue
    (fun j hj hlt => by
      have hj0 : j = 0 := by omega
      subst hj0
      exact powerOff_false _ _ rfl)
  exact ⟨h.1, (h.2 ("p") (fun _ => imgOne) [] [] ssEmpty 2 rfl).trans rfl⟩

/-- Claim C2: with every condition evaluating false and no fallback the
scan raises the hard `RuntimeError`; and when a stage with the
constant-true condition is registered (and the conditions before it
evaluate without raising) classification returns a stage — the fallback
itself when everything before it evaluates false. -/
theorem c2_no_match_fatal_fallback_total (L : List Stage) (ss : Screenshots) (st : Stages) :
    ((∀ s ∈ L, s.get_condition.is_met ss st = some false) →
      get_current_stage L ss st = .error .stageNotDefined) ∧
    (∀ L1 fb L2, L = L1 ++ fb :: L2 → fb.get_condition = .trueCondition →
      (∀ s ∈ L1, ∃ b, s.get_condition.is_met ss st = some b) →
      (∃ s, get_current_stage L ss st = .ok s) ∧
      ((∀ s ∈ L1, s.get_condition.is_met ss st = some false) →
        get_current_stage L ss st = .ok fb)) := by
  refine ⟨get_current_stage_all_false L ss st, ?_⟩
  intro L1 fb L2 hsplit hfb
  subst hsplit
  induction L1 with
  | nil =>
    intro _
    have h : get_current_stage ([] ++ fb :: L2) ss st = .ok fb := by
      have hmet : fb.get_condition.is_met ss st = some true := by
        rw [hfb]
        exact is_met_trueCondition ss st
      simp only [List.nil_append, get_current_stage, hmet]
    exact ⟨⟨fb, h⟩, fun _ => h⟩
  | cons s rest ih =>
    intro hok
    obtain ⟨b, hb⟩ := hok s (by simp)
    cases b with
    | true =>
      have h : get_current_stage ((s :: rest) ++ fb :: L2) ss st = .ok s := by
        simp only [List.cons_append, get_current_stage, hb]
      refine ⟨⟨s, h⟩, fun hall => ?_⟩
      have := hall s (by simp)
      rw [this] at hb
      exact absurd (Option.some.inj hb) (by simp)
    | false =>
      obtain ⟨⟨w, hw⟩, hfallback⟩ := ih fun x hx => hok x (by simp [hx])
      constructor
      · exact ⟨w, by simp only [List.cons_append, get_current_stage, hb]; exact hw⟩
      · intro hall
        have hrest := hfallback fun x hx => hall x (by simp [hx])
        simp only [List.cons_append, get_current_stage, hb]
        exact hrest

/-- Concrete run of claim C2's theorem: the one-stage registry whose
condition is false raises the hard error, and appending the always-true
fallback makes classification return the fallback. -/
theorem c2_no_match_fatal_fallback_total_witness :
    get_current_stage [Stage.powerOffStage testRefs] ssOne stEmpty =
      .error .stageNotDefined ∧
    get_current_stage [Stage.powerOffStage testRefs, Stage.unknownStage testRefs]
        ssOne stEmpty = .ok (Stage.unknownStage testRefs) := by
  have hfalse : ∀ s ∈ [Stage.powerOffStage testRefs],
      s.get_condition.is_met ssOne stEmpty = some false := by
    intro s hs
    rw [List.mem_singleton] at hs
    subst hs
    exact powerOff_false ssOne stEmpty rfl
  refine ⟨(c2_no_match_fatal_fallback_total [Stage.powerOffStage testRefs] ssOne stEmpty).1
    hfalse, ?_⟩
  have h2 := (c2_no_match_fatal_fallback_total
      [Stage.powerOffStage testRefs, Stage.unknownStage testRefs] ssOne stEmpty).2
    [Stage.powerOffStage testRefs] (Stage.unknownStage testRefs) [] rfl rfl
    (fun s hs => ⟨false, hfalse s hs⟩)
  exact (h2.2 hfalse)

/-- Frame sameness on a history with fewer than two entries evaluates to
false: `screenshots.previous` is absent and the guard returns early. -/
theorem sameScreenshot_false_of_short (ss : Screenshots) (st : Stages)
    (h : ss.screenshots.length < 2) :
    Condition.sameScreenshotCondition.is_met ss st = some false := by
  have h1 : ss.screenshots.get? 1 = none := List.get?_eq_none.2 (by omega)
  have hprev : ss.previous = none := by
    show (ss.screenshots.get? 1).map Prod.snd = none
    rw [h1]
    rfl
  simp [Condition.is_met, hprev]

/-- Frame sameness on a history with at least two entries compares the two
most recent screenshots over the full frame (raising on a size
mismatch). -/
theorem sameScreenshot_eval_of_two (ss : Screenshots) (st : Stages) (p0 p1 : String)
    (i0 i1 : Image) (rest : List (String × Image))
    (hss : ss.screenshots = (p0, i0) :: (p1, i1) :: rest) :
    Condition.sameScreenshotCondition.is_met ss st =
      if i0.width = i1.width ∧ i0.height = i1.height then some (pixEqB i0 i1) else none := by
  have hprev : ss.previous = some i1 := by
    show (ss.screenshots.get? 1).map Prod.snd = some i1
    rw [hss]
    rfl
  have hlast : ss.last = some i0 := by
    show (ss.screenshots.get? 0).map Prod.snd = some i0
    rw [hss]
    rfl
  simp [Condition.is_met, hprev, hlast]

/-- Region similarity reads `screenshots.last` without a guard, so an
empty history raises. -/
theorem similar_is_met_none (ss : Screenshots) (st : Stages) (ref : Image) (l t w h : Nat)
    (hss : ss.screenshots = []) :
    (Condition.similarScreenshotCondition ref l t w h).is_met ss st = none := by
  have hlast : ss.last = none := by
    show (ss.screenshots.get? 0).map Prod.snd = none
    rw [hss]
    rfl
  simp [Condition.is_met, hlast]

/-- Region similarity on a nonempty history compares the crops of the most
recent screenshot and of the reference. -/
theorem similar_is_met_eval (ss : Screenshots) (st : Stages) (ref : Image) (l t w h : Nat)
    (p : String) (img : Image) (rest : List (String × Image))
    (hss : ss.screenshots = (p, img) :: rest) :
    (Condition.similarScreenshotCondition ref l t w h).is_met ss st =
      some (pixEqB (img.crop l t (l + w) (t + h)) (ref.crop l t (l + w) (t + h))) := by
  have hlast : ss.last = some img := by
    show (ss.screenshots.get? 0).map Prod.snd = some img
    rw [hss]
    rfl
  simp [Condition.is_met, hlast]

/-- Claim C7: the frame-sameness condition evaluates to false on a history
with 0 or 1 entries, and on a history with 2 or more entries it evaluates
to true exactly when the two most recent screenshots are pixel-identical
over the full frame. -/
theorem c7_frame_sameness (ss : Screenshots) (st : Stages) :
    (ss.screenshots.length < 2 →
      Condition.sameScreenshotCondition.is_met ss st = some false) ∧
    (∀ p0 i0 p1 i1 rest, ss.screenshots = (p0, i0) :: (p1, i1) :: rest →
      (Condition.sameScreenshotCondition.is_met ss st = some true ↔ i0.identical i1)) := by
  refine ⟨sameScreenshot_false_of_short ss st, ?_⟩
  intro p0 i0 p1 i1 rest hss
  rw [sameScreenshot_eval_of_two ss st p0 p1 i0 i1 rest hss]
  by_cases hdim : i0.width = i1.width ∧ i0.height = i1.height
  · simp only [if_pos hdim, Option.some_inj]
    rw [identical_iff]
    constructor
    · exact fun hpix => ⟨hdim.1, hdim.2, hpix⟩
    · exact fun hid => hid.2.2
  · simp only [if_neg hdim]
    constructor
    · intro hcontra
      exact absurd hcontra (by simp)
    · intro hid
      exact absurd ⟨hid.1, hid.2.1⟩ hdim

/-- Concrete run of claim C7's theorem: a single capture gives false, two
captures with the same bitmap give true. -/
theorem c7_frame_sameness_witness :
    Condition.sameScreenshotCondition.is_met ssOne stEmpty = some false ∧
    Condition.sameScreenshotCondition.is_met ⟨5, [("a", imgOne), ("b", imgOne)]⟩ stEmpty =
      some true := by
  constructor
  · exact (c7_frame_sameness ssOne stEmpty).1 (by decide)
  · exact ((c7_frame_sameness ⟨5, [("a", imgOne), ("b", imgOne)]⟩ stEmpty).2
      ("a") imgOne ("b") imgOne [] rfl).2 ⟨rfl, rfl, fun x _ y _ => rfl⟩

/-- Claim C3 counterexample: the region-similarity condition evaluated on
an empty screenshot history raises (`screenshots.last` is absent and is
dereferenced), instead of returning false as claimed. -/
theorem c3_counterexample :
    (Condition.similarScreenshotCondition imgZero 0 0 10 10).is_met ssEmpty stEmpty ≠
      some false := by
  rw [similar_is_met_none ssEmpty stEmpty imgZero 0 0 10 10 rfl]
  simp

/-- Claim C3 as amended: the frame-sameness condition returns false on any
history with fewer than two entries, but the region-similarity condition
is not history-guarded: on an empty history its evaluation raises rather
than returning false, and with at least one capture it performs the
normal region comparison (which can return true). -/
theorem c3_incomplete_history_amended (ss : Screenshots) (st : Stages) :
    (ss.screenshots.length < 2 →
      Condition.sameScreenshotCondition.is_met ss st = some false) ∧
    (ss.screenshots = [] → ∀ ref l t w h,
      (Condition.similarScreenshotCondition ref l t w h).is_met ss st = none) ∧
    (∀ ref l t w h p img rest, ss.screenshots = (p, img) :: rest →
      (Condition.similarScreenshotCondition ref l t w h).is_met ss st =
        some (pixEqB (img.crop l t (l + w) (t + h)) (ref.crop l t (l + w) (t + h)))) := by
  refine ⟨sameScreenshot_false_of_short ss st, ?_, ?_⟩
  · intro hss ref l t w h
    exact similar_is_met_none ss st ref l t w h hss
  · intro ref l t w h p img rest hss
    exact similar_is_met_eval ss st ref l t w h p img rest hss

/-- Concrete run of claim C3's amended theorem: one capture makes frame
sameness false, an empty history makes region similarity raise, and one
capture identical to the reference makes region similarity true (not
false). -/
theorem c3_incomplete_history_amended_witness :
    Condition.sameScreenshotCondition.is_met ssOne stEmpty = some false ∧
    (Condition.similarScreenshotCondition imgZero 0 0 10 10).is_met ssEmpty stEmpty = none ∧
    (Condition.similarScreenshotCondition imgOne 0 0 4 4).is_met ssOne stEmpty = some true := by
  refine ⟨(c3_incomplete_history_amended ssOne stEmpty).1 (by decide),
    (c3_incomplete_history_amended ssEmpty stEmpty).2.1 rfl imgZero 0 0 10 10, ?_⟩
  have h := (c3_incomplete_history_amended ssOne stEmpty).2.2 imgOne 0 0 4 4
    ("p1") imgOne [] rfl
  rw [h]
  exact congrArg some (pixEqB_refl _)

/-- A successful removal loop only shrinks the filesystem. -/
theorem removeAll_ok_subset (ps : List String) :
    ∀ fs fs1, removeAll fs ps = .ok fs1 → fs1 ⊆ fs := by
  induction ps with
  | nil =>
    intro fs fs1 h
    cases h
    exact fun _ hx => hx
  | cons p rest ih =>
    intro fs fs1 h
    unfold removeAll osRemove at h
    by_cases hp : p ∈ fs
    · rw [if_pos hp] at h
      exact fun x hx => List.erase_subset p fs (ih (fs.erase p) fs1 h hx)
    · rw [if_neg hp] at h
      cases h

/-- A successful removal loop over a duplicate-free filesystem leaves none
of the removed paths behind. -/
theorem removeAll_ok_removed (ps : List String) :
    ∀ fs fs1, removeAll fs ps = .ok fs1 → fs.Nodup → ∀ q ∈ ps, q ∉ fs1 := by
  induction ps with
  | nil =>
    intro fs fs1 h hnd q hq
    cases hq
  | cons p rest ih =>
    intro fs fs1 h hnd q hq
    unfold removeAll osRemove at h
    by_cases hp : p ∈ fs
    · rw [if_pos hp] at h
      rcases List.mem_cons.1 hq with hq0 | hq1
      · subst hq0
        intro hmem
        exact hnd.not_mem_erase (removeAll_ok_subset rest _ _ h hmem)
      · exact ih (fs.erase p) fs1 h (hnd.erase p) q hq1
    · rw [if_neg hp] at h
      cases h

/-- A raising removal loop raises at a path missing from the filesystem it
reports. -/
theorem removeAll_error_witness (ps : List String) :
    ∀ fs fs1, removeAll fs ps = .error fs1 → ∃ q ∈ ps, q ∉ fs1 := by
  induction ps with
  | nil =>
    intro fs fs1 h
    cases h
  | cons p rest ih =>
    intro fs fs1 h
    unfold removeAll osRemove at h
    by_cases hp : p ∈ fs
    · rw [if_pos hp] at h
      obtain ⟨q, hq, hq1⟩ := ih (fs.erase p) fs1 h
      exact ⟨q, List.mem_cons_of_mem p hq, hq1⟩
    · rw [if_neg hp] at h
      cases h
      exact ⟨p, List.mem_cons_self p rest, hp⟩

/-- Anatomy of a successful `Screenshots.add`: bound kept, buffer is the
new entry consed on and truncated, filesystem transformed by the removal
loop over the evicted paths. -/
theorem Screenshots.add_ok_spec {s : Screenshots} {fs : FS} {p : String} {img : Image}
    {s2 : Screenshots} {fs2 : FS} (h : s.add fs p img = .ok s2 fs2) :
    s2.maxCount = s.maxCount ∧
    s2.screenshots = ((p, img) :: s.screenshots).take s.maxCount ∧
    removeAll fs ((((p, img) :: s.screenshots).drop s.maxCount).map Prod.fst) = .ok fs2 := by
  unfold Screenshots.add at h
  cases hr : removeAll fs ((((p, img) :: s.screenshots).drop s.maxCount).map Prod.fst) with
  | ok fs3 =>
    rw [hr] at h
    cases h
    exact ⟨rfl, rfl, rfl⟩
  | error fs3 =>
    rw [hr] at h
    cases h

/-- Keeping `take` idempotent across an append, for the fold invariant. -/
theorem take_append_take {α : Type} (A B : List α) (M : Nat) :
    (A ++ B.take M).take M = (A ++ B).take M := by
  rw [List.take_append_eq_append_take, List.take_append_eq_append_take,
    List.take_take, min_eq_left (Nat.sub_le M A.length)]

/-- Folding successful `add` calls over the screenshot buffer retains the
newest `maxCount` entries, newest first. -/
theorem Screenshots.addAll_ok_spec (es : List (String × Image)) :
    ∀ (s : Screenshots) (fs : FS) (s1 : Screenshots) (fs1 : FS),
      s.screenshots.length ≤ s.maxCount →
      s.addAll fs es = .ok (s1, fs1) →
      s1.maxCount = s.maxCount ∧
      s1.screenshots = (es.reverse ++ s.screenshots).take s.maxCount := by
  induction es with
  | nil =>
    intro s fs s1 fs1 hlen h
    cases h
    exact ⟨rfl, (List.take_of_length_le (by simpa using hlen)).symm⟩
  | cons e rest ih =>
    intro s fs s1 fs1 hlen h
    obtain ⟨a, b⟩ := e
    unfold Screenshots.addAll at h
    cases hr : s.add fs a b with
    | removeFailed s3 fs3 =>
      rw [hr] at h
      cases h
    | ok s3 fs3 =>
      rw [hr] at h
      obtain ⟨hmax, hbuf, -⟩ := Screenshots.add_ok_spec hr
      have hlen3 : s3.screenshots.length ≤ s3.maxCount := by
        rw [hbuf, hmax]
        exact List.length_take_le _ _
      obtain ⟨hmax1, hbuf1⟩ := ih s3 fs3 s1 fs1 hlen3 h
      refine ⟨hmax1.trans hmax, ?_⟩
      rw [hbuf1, hmax, hbuf]
      rw [take_append_take, List.reverse_cons, List.append_assoc]
      rfl

/-- Folding `Stages.add` retains the newest `maxCount` stages, newest
first. -/
theorem Stages.addAll_spec (xs : List Stage) :
    ∀ s : Stages, s.stages.length ≤ s.maxCount →
      (s.addAll xs).maxCount = s.maxCount ∧
      (s.addAll xs).stages = (xs.reverse ++ s.stages).take s.maxCount := by
  induction xs with
  | nil =>
    intro s hlen
    exact ⟨rfl, (List.take_of_length_le (by simpa using hlen)).symm⟩
  | cons x rest ih =>
    intro s hlen
    have hlen1 : (s.add x).stages.length ≤ (s.add x).maxCount :=
      List.length_take_le _ _
    obtain ⟨hmax, hbuf⟩ := ih (s.add x) hlen1
    refine ⟨hmax, ?_⟩
    show (Stages.addAll (s.add x) rest).stages = _
    rw [hbuf]
    show (rest.reverse ++ (x :: s.stages).take s.maxCount).take s.maxCount = _
    rw [take_append_take, List.reverse_cons, List.append_assoc]
    rfl

/-- Claim C4: from an empty buffer, any sequence of successful adds leaves
the screenshot history holding exactly the newest M entries, newest
first, and within bound; each successful add removes every evicted
entry's backing file from the (duplicate-free) filesystem; and the stage
history analogously retains the newest N stages — its `add` takes no
filesystem at all, so stage eviction has no storage effect. -/
theorem c4_bounded_history (M N : Nat) (es : List (String × Image)) (fs fs1 : FS)
    (s1 : Screenshots) (xs : List Stage)
    (h : (Screenshots.mk M []).addAll fs es = .ok (s1, fs1)) :
    (s1.screenshots = es.reverse.take M ∧ s1.screenshots.length ≤ M) ∧
    (∀ (s : Screenshots) (f : FS) (p : String) (img : Image) (s2 : Screenshots) (f2 : FS),
      s.add f p img = .ok s2 f2 → f.Nodup →
      ∀ q ∈ (((p, img) :: s.screenshots).drop s.maxCount).map Prod.fst, q ∉ f2) ∧
    (((Stages.mk N []).addAll xs).stages = xs.reverse.take N ∧
      ((Stages.mk N []).addAll xs).stages.length ≤ N) := by
  refine ⟨?_, ?_, ?_⟩
  · obtain ⟨hmax, hbuf⟩ := Screenshots.addAll_ok_spec es (Screenshots.mk M []) fs s1 fs1
      (by simp) h
    have hbuf1 : s1.screenshots = es.reverse.take M := by
      rw [hbuf]
      simp
    exact ⟨hbuf1, by rw [hbuf1]; exact List.length_take_le _ _⟩
  · intro s f p img s2 f2 hadd hnd q hq
    obtain ⟨-, -, hrm⟩ := Screenshots.add_ok_spec hadd
    exact removeAll_ok_removed _ _ _ hrm hnd q hq
  · obtain ⟨hmax, hbuf⟩ := Stages.addAll_spec xs (Stages.mk N []) (by simp)
    have hbuf1 : ((Stages.mk N []).addAll xs).stages = xs.reverse.take N := by
      rw [hbuf]
      simp
    exact ⟨hbuf1, by rw [hbuf1]; exact List.length_take_le _ _⟩

/-- Concrete run of claim C4's theorem: three adds against bound 2 keep
the newest two entries newest-first, the evicted path is gone from the
filesystem, and three stage adds against bound 2 keep the newest two
stages. -/
theorem c4_bounded_history_witness :
    (Screenshots.mk 2 [("c", imgOne), ("b", imgOne)]).screenshots =
      [("a", imgOne), ("b", imgOne), ("c", imgOne)].reverse.take 2 ∧
    ("a" : String) ∉ ([] : FS) ∧
    ((Stages.mk 2 []).addAll [Stage.unknownStage testRefs, Stage.startStage testRefs,
        Stage.powerOffStage testRefs]).stages =
      [Stage.powerOffStage testRefs, Stage.startStage testRefs] := by
  have h := c4_bounded_history 2 2 [("a", imgOne), ("b", imgOne), ("c", imgOne)] ["a"] []
    (Screenshots.mk 2 [("c", imgOne), ("b", imgOne)])
    [Stage.unknownStage testRefs, Stage.startStage testRefs, Stage.powerOffStage testRefs]
    rfl
  refine ⟨h.1.1, ?_, h.2.2.1.trans rfl⟩
  exact h.2.1 (Screenshots.mk 2 [("b", imgOne), ("a", imgOne)]) ["a"] ("c") imgOne
    (Screenshots.mk 2 [("c", imgOne), ("b", imgOne)]) [] rfl (by decide) ("a") (by decide)

/-- Claim C8 counterexample: an eviction-time deletion failure is not
caught: with bound 1, a full buffer and an empty filesystem, `add` raises
out of the removal loop, and the buffer is left inserted and untruncated
(length 2 above the bound) instead of advancing to the truncated state. -/
theorem c8_counterexample :
    (Screenshots.mk 1 [("a", imgOne)]).add [] ("b") imgOne =
      .removeFailed (Screenshots.mk 1 [("b", imgOne), ("a", imgOne)]) [] := rfl

/-- Claim C8 as amended: when deleting an evicted screenshot's backing
file fails, `add` raises (it does not catch the error): at the raise the
new entry is inserted at the front but the buffer is not truncated to its
bound, and some evicted path is indeed missing from the filesystem the
loop reached. -/
theorem c8_remove_failure_raises (s : Screenshots) (fs : FS) (p : String) (img : Image)
    (s2 : Screenshots) (fs2 : FS) (h : s.add fs p img = .removeFailed s2 fs2) :
    s2.screenshots = (p, img) :: s.screenshots ∧ s2.maxCount = s.maxCount ∧
    ∃ q ∈ (((p, img) :: s.screenshots).drop s.maxCount).map Prod.fst, q ∉ fs2 := by
  unfold Screenshots.add at h
  cases hr : removeAll fs ((((p, img) :: s.screenshots).drop s.maxCount).map Prod.fst) with
  | ok fs3 =>
    rw [hr] at h
    cases h
  | error fs3 =>
    rw [hr] at h
    cases h
    exact ⟨rfl, rfl, removeAll_error_witness _ _ _ hr⟩

/-- Concrete run of claim C8's amended theorem at the counterexample
input. -/
theorem c8_remove_failure_raises_witness :
    (Screenshots.mk 1 [("b", imgOne), ("a", imgOne)]).screenshots =
      ("b", imgOne) :: [("a", imgOne)] ∧
    ∃ q ∈ ((("b", imgOne) :: [("a", imgOne)]).drop 1).map Prod.fst, q ∉ ([] : FS) := by
  have h := c8_remove_failure_raises (Screenshots.mk 1 [("a", imgOne)]) [] ("b") imgOne
    (Screenshots.mk 1 [("b", imgOne), ("a", imgOne)]) [] rfl
  exact ⟨h.1, h.2.2⟩

/-- Claim C6 counterexample: with no fallback registered and no matching
condition, `handle_tick` does not return a `TICK_INTERVAL - elapsed` wait:
classification raises and the error propagates out of the tick. -/
theorem c6_counterexample :
    handle_tick [Stage.powerOffStage testRefs] (some ("p")) (fun _ => imgOne) [] ssEmpty
        stEmpty 3 = .error (.classify .stageNotDefined) := by
  have hadd : ssEmpty.add [] ("p") imgOne = .ok ⟨5, [("p", imgOne)]⟩ [] := rfl
  have hclass : get_current_stage [Stage.powerOffStage testRefs] ⟨5, [("p", imgOne)]⟩ stEmpty =
      .error .stageNotDefined := by
    refine get_current_stage_all_false _ _ _ fun s hs => ?_
    rw [List.mem_singleton] at hs
    subst hs
    exact powerOff_false _ _ rfl
  simp [handle_tick, hadd, hclass]

/-- Claim C6 as amended: when capture and eviction succeed and a stage is
classified, the wait before the next tick is exactly the fixed
`TICK_INTERVAL`, independent of the elapsed time (the executed command's
duration is not subtracted); when classification raises (in particular
when nothing matches and no fallback is registered), `handle_tick`
propagates the error and produces no wait at all — the
`TICK_INTERVAL - elapsed` branch of the source is unreachable. -/
theorem c6_tick_wait (L : List Stage) (path : String) (decode : String → Image) (fs : FS)
    (ss ss1 : Screenshots) (st : Stages) (fs1 : FS) (elapsed : ℚ)
    (hadd : ss.add fs path (decode path) = .ok ss1 fs1) :
    (∀ stage, get_current_stage L ss1 st = .ok stage →
      handle_tick L (some path) decode fs ss st elapsed =
        .ok ⟨ss1, st.add stage, some (stage.get_command (st.add stage)), TICK_INTERVAL, fs1⟩) ∧
    (∀ e, get_current_stage L ss1 st = .error e →
      handle_tick L (some path) decode fs ss st elapsed = .error (.classify e)) := by
  constructor
  · intro stage hclass
    simp [handle_tick, hadd, hclass, Stage.truthy]
  · intro e hclass
    simp [handle_tick, hadd, hclass]

/-- Concrete run of claim C6's amended theorem: a recognized stage yields
the full fixed interval as the wait even though 7 time-units already
elapsed this tick. -/
theorem c6_tick_wait_witness :
    handle_tick [Stage.unknownStage testRefs] (some ("p")) (fun _ => imgOne) [] ssEmpty
        stEmpty 7 =
      .ok ⟨⟨5, [("p", imgOne)]⟩, stEmpty.add (Stage.unknownStage testRefs),
        some Command.noOpCommand, TICK_INTERVAL, []⟩ := by
  have hmet : (Stage.unknownStage testRefs).get_condition.is_met ⟨5, [("p", imgOne)]⟩
      stEmpty = some true := is_met_trueCondition _ _
  have hclass : get_current_stage [Stage.unknownStage testRefs] ⟨5, [("p", imgOne)]⟩ stEmpty =
      .ok (Stage.unknownStage testRefs) := by
    simp only [get_current_stage, hmet]
  have h := (c6_tick_wait [Stage.unknownStage testRefs] ("p") (fun _ => imgOne) [] ssEmpty
    ⟨5, [("p", imgOne)]⟩ stEmpty [] 7 rfl).1 (Stage.unknownStage testRefs) hclass
  exact h.trans rfl

end ICat
